import Mathlib

set_option autoImplicit false

/-!
Verification development for the delta-writer ingest service
(src/delta-writer/writer.py) of the analytics platform.

The embedding mirrors the Python source:
* decoded JSON values (`json.loads` results) are `JVal`;
* a Python dict is an ordered field list `JFields` (unique keys in real
  dicts; operations model `dict.setdefault`, item assignment and `in`);
* `parse_event`, `write_batch_to_delta` (its column inference),
  `wait_for_kafka` and the `main` consume loop are translated function by
  function;
* calls into external libraries are made explicit: `datetime.fromisoformat`
  and `datetime.isoformat` are parameters (bundled in `PyLib`),
  `json.dumps` is modelled by the executable `jdumps`, and the Kafka client
  is modelled by the poll inputs (message bytes, wall-clock readings, and
  the auto-commit behaviour implied by `enable_auto_commit=True`).
-/

mutual
/-- A decoded JSON value, the result of `json.loads` on message bytes. -/
inductive JVal where
  | str (s : String)
  | num (n : Int)
  | bool (b : Bool)
  | null
  | obj (fields : JFields)
  | arr (elems : JList)
deriving DecidableEq, Repr

/-- The ordered key/value entries of a JSON object (a Python dict). -/
inductive JFields where
  | nil
  | cons (k : String) (v : JVal) (rest : JFields)
deriving DecidableEq, Repr

/-- The ordered elements of a JSON array (a Python list). -/
inductive JList where
  | nil
  | cons (v : JVal) (rest : JList)
deriving DecidableEq, Repr
end

/-- Build a `JFields` from a plain list, for writing concrete objects. -/
def JFields.ofList : List (String × JVal) → JFields
  | [] => .nil
  | (k, v) :: rest => .cons k v (JFields.ofList rest)

/-- First value stored under a key (`event[k]` / `k in event` lookup). -/
def JFields.lookup : JFields → String → Option JVal
  | .nil, _ => none
  | .cons k2 v rest, k => if k2 = k then some v else JFields.lookup rest k

/-- Python `k in event`. -/
def JFields.hasKey (e : JFields) (k : String) : Bool :=
  (e.lookup k).isSome

/-- Python item assignment `event[k] = v`: replace the value at an existing
key in place, otherwise append the new key at the end (dict order). -/
def JFields.setk : JFields → String → JVal → JFields
  | .nil, k, v => .cons k v .nil
  | .cons k2 v2 rest, k, v =>
      if k2 = k then .cons k2 v rest else .cons k2 v2 (JFields.setk rest k v)

/-- Python `event.setdefault(k, v)`: leave an existing key untouched,
otherwise append the key with the default value. -/
def JFields.setdefault : JFields → String → JVal → JFields
  | .nil, k, v => .cons k v .nil
  | .cons k2 v2 rest, k, v =>
      if k2 = k then .cons k2 v2 rest else .cons k2 v2 (JFields.setdefault rest k v)

/-- Keys of the object, in order. -/
def JFields.keys : JFields → List String
  | .nil => []
  | .cons k _ rest => k :: JFields.keys rest

/-- Python truthiness of a decoded JSON value, as used by the condition
on the timestamp field at line 73 of writer.py. -/
def JVal.truthy : JVal → Bool
  | .str s => !(s = "")
  | .num n => !(n = 0)
  | .bool b => b
  | .null => false
  | .obj .nil => false
  | .obj (.cons _ _ _) => true
  | .arr .nil => false
  | .arr (.cons _ _) => true

mutual
/-- `json.dumps` on a decoded value (default separators; string escaping is
not modelled, the development only applies it to escape-free strings). -/
def jdumps : JVal → String
  | .null => "null"
  | .bool true => "true"
  | .bool false => "false"
  | .num n => toString n
  | .str s => "\x22" ++ s ++ "\x22"
  | .obj fs => "\x7b" ++ jdumpsFields fs ++ "\x7d"
  | .arr es => "[" ++ jdumpsElems es ++ "]"

def jdumpsFields : JFields → String
  | .nil => ""
  | .cons k v .nil => "\x22" ++ k ++ "\x22: " ++ jdumps v
  | .cons k v rest => "\x22" ++ k ++ "\x22: " ++ jdumps v ++ ", " ++ jdumpsFields rest

def jdumpsElems : JList → String
  | .nil => ""
  | .cons v .nil => jdumps v
  | .cons v rest => jdumps v ++ ", " ++ jdumpsElems rest
end

/-- Python string replace of the letter Z by the UTC offset +00:00. -/
def replaceZ (s : String) : String :=
  String.join (s.data.map fun c => if c = 'Z' then "+00:00" else String.singleton c)

/-- The `datetime` library calls made by `parse_event`, as explicit
parameters: `fromisoformat` models `datetime.fromisoformat` (returning
`none` where the Python call raises `ValueError`), `isoformat` models
`datetime.isoformat` on the parsed instant; instants are modelled as
integers with their usual order. -/
structure PyLib where
  fromisoformat : String → Option Int
  isoformat : Int → String

/-- Lines 72-81 of writer.py: the timestamp normalization step.
`datetime.utcnow()` at the moment of the call is the `nowTs` argument; the
bare `except:` around the parse also swallows the `AttributeError` raised
by `.replace` on a non-string truthy value. -/
def normalizeTimestamp (lib : PyLib) (nowTs : Int) (e : JFields) : JFields :=
  match e.lookup "timestamp" with
  | some v =>
      if v.truthy then
        match v with
        | .str s =>
            match lib.fromisoformat (replaceZ s) with
            | some dt => e.setk "timestamp" (.str (lib.isoformat dt))
            | none => e.setk "timestamp" (.str (lib.isoformat nowTs))
        | _ => e.setk "timestamp" (.str (lib.isoformat nowTs))
      else e.setk "timestamp" (.str (lib.isoformat nowTs))
  | none => e.setk "timestamp" (.str (lib.isoformat nowTs))

/-- Lines 83-97 of writer.py: the `setdefault` chain, in source order. -/
def applyDefaults (e : JFields) : JFields :=
  let e := e.setdefault "channel" (.str "unknown")
  let e := e.setdefault "platform" (.str "")
  let e := e.setdefault "event_type" (.str "unknown")
  let e := e.setdefault "event_category" (.str "")
  let e := e.setdefault "resource_id" (.str "")
  let e := e.setdefault "resource_title" (.str "")
  let e := e.setdefault "interaction_target" (.str "")
  let e := e.setdefault "session_id" (.str "")
  let e := e.setdefault "user_id" (.str "")
  let e := e.setdefault "device_id" (.str "")
  let e := e.setdefault "user_agent" (.str "")
  let e := e.setdefault "client_version" (.str "")
  let e := e.setdefault "interaction_value" .null
  let e := e.setdefault "interaction_text" (.str "")
  e

/-- Lines 99-103 of writer.py: serialize a structured `metadata` value,
defaulting anything else to the serialized empty structure. -/
def normalizeMetadata (e : JFields) : JFields :=
  match e.lookup "metadata" with
  | some (.obj fs) => e.setk "metadata" (.str (jdumps (.obj fs)))
  | some (.arr xs) => e.setk "metadata" (.str (jdumps (.arr xs)))
  | _ => e.setk "metadata" (.str "\x7b\x7d")

/-- The string `normalizeMetadata` stores under `metadata`: the serialized
form of a structured value, the serialized empty structure otherwise. -/
def metaOut (e : JFields) : String :=
  match e.lookup "metadata" with
  | some (.obj fs) => jdumps (.obj fs)
  | some (.arr xs) => jdumps (.arr xs)
  | _ => "\x7b\x7d"

/-- Lines 67-108 of writer.py, `parse_event`: the argument is the result of
`json.loads` on the message bytes (`none` when decoding or `json.loads`
raises). A decoded value that is not an object makes the subsequent
subscript operations raise `TypeError`, caught by the enclosing
`except Exception` which returns `None`; so only objects normalize. -/
def parse_event (lib : PyLib) (nowTs : Int) (msg : Option JVal) : Option JFields :=
  match msg with
  | some (.obj fields) =>
      some (normalizeMetadata (applyDefaults (normalizeTimestamp lib nowTs fields)))
  | _ => none

/-- The instant the timestamp branch of `parse_event` preserves, when there
is one: the `timestamp` value must be a string (anything else makes
`.replace` raise `AttributeError` into the bare `except`), truthy
(non-empty), and parse after the `Z` replacement. -/
def tsParseOk (lib : PyLib) (e : JFields) : Option Int :=
  match e.lookup "timestamp" with
  | some (.str s) => if s = "" then none else lib.fromisoformat (replaceZ s)
  | _ => none

/-- The keys given defaults by the `setdefault` chain, in source order. -/
def defaultedKeys : List String :=
  ["channel", "platform", "event_type", "event_category", "resource_id",
   "resource_title", "interaction_target", "session_id", "user_id",
   "device_id", "user_agent", "client_version", "interaction_value",
   "interaction_text"]

/-- The fixed string-field list of the spec (section 3). -/
def stringFields : List String :=
  ["channel", "platform", "event_type", "event_category", "resource_id",
   "resource_title", "interaction_target", "session_id", "user_id",
   "device_id", "user_agent", "client_version", "interaction_text"]

/-- All fields of the fixed event-record schema of the spec (section 3). -/
def fixedFields : List String :=
  "timestamp" :: stringFields ++ ["interaction_value", "metadata"]

/-- Column set of `pd.DataFrame(events)` as built by `write_batch_to_delta`
(lines 110-135 of writer.py): the union of the key sets of the records, in
first-appearance order. -/
def dfColumns (events : List JFields) : List String :=
  events.foldl (fun cols e => cols ++ (e.keys.filter fun k => !(cols.contains k))) []

/-- A concrete instantiation of the `datetime` parameters used to evaluate
the development on closed inputs: instants 0, 1, 2, ... are written
"T0", "T1", "T2", ... and only such strings parse. -/
def testLib : PyLib where
  fromisoformat := fun s =>
    if s = "T0" then some 0 else if s = "T1" then some 1 else
    if s = "T7" then some 7 else none
  isoformat := fun t => "T" ++ toString t

/-- One iteration of the consume loop (lines 175-188 of writer.py), as seen
from the loop state: the wall clock read by `time.time()` at the flush
check, the wall clock `datetime.utcnow()` would report inside
`parse_event`, the decoded message value (`none` for undecodable bytes),
and whether the Kafka client performs an offset auto-commit while fetching
this message (the consumer is created with `enable_auto_commit=True`, so
commits are issued periodically by the client during polling, covering the
messages already returned to the loop). -/
structure PollInput where
  time : Nat
  nowTs : Int
  msg : Option JVal
  autocommit : Bool
deriving DecidableEq, Repr

/-- State of the consume loop in `main`: the in-memory `batch`, the
`last_batch_time` reading, the batches successfully passed to
`write_deltalake` so far, the number of messages returned by the consumer,
and the number of leading messages whose offsets the client has committed. -/
structure IngestState where
  batch : List JFields
  lastBatchTime : Nat
  written : List (List JFields)
  consumed : Nat
  committed : Nat
deriving DecidableEq, Repr

/-- Bookkeeping of one `for message in consumer` fetch: when the client
auto-commits during the fetch it commits the offsets of the messages
already returned to the loop, then one more message is returned. -/
def consumeMark (inp : PollInput) (s : IngestState) : IngestState :=
  let s1 := if inp.autocommit then { s with committed := s.consumed } else s
  { s1 with consumed := s1.consumed + 1 }

/-- Result of running the `for message in consumer` loop on a list of poll
inputs: final state, next write-attempt index, whether the loop was left by
a `write_batch_to_delta` exception, and the poll inputs never consumed. -/
def loopGo (lib : PyLib) (oracle : Nat → Bool) (bs bt : Nat) :
    List PollInput → IngestState → Nat → IngestState × Nat × Bool × List PollInput
  | [], s, k => (s, k, false, [])
  | inp :: rest, s, k =>
      match parse_event lib inp.nowTs inp.msg with
      | none => loopGo lib oracle bs bt rest (consumeMark inp s) k
      | some e =>
          if bs ≤ (s.batch ++ [e]).length ∨ bt ≤ inp.time - s.lastBatchTime then
            if oracle k then
              loopGo lib oracle bs bt rest
                ⟨[], inp.time, s.written ++ [s.batch ++ [e]],
                 (consumeMark inp s).consumed, (consumeMark inp s).committed⟩
                (k + 1)
            else
              (⟨s.batch ++ [e], s.lastBatchTime, s.written,
                (consumeMark inp s).consumed, (consumeMark inp s).committed⟩,
               k + 1, true, rest)
          else
            loopGo lib oracle bs bt rest
              ⟨s.batch ++ [e], s.lastBatchTime, s.written,
               (consumeMark inp s).consumed, (consumeMark inp s).committed⟩ k

/-- Process exit status: `zero` models a normal return from `main`,
`nonzero` models an uncaught exception reaching the interpreter. -/
inductive ProcExit where
  | zero
  | nonzero
deriving DecidableEq, Repr

/-- Observable outcome of a full run of `main`: the batches appended by
`write_deltalake` in order, the batch left unwritten when the final append
fails, the final loop state, and the process exit status. -/
structure RunResult where
  appends : List (List JFields)
  pending : List JFields
  state : IngestState
  exit : ProcExit
deriving DecidableEq, Repr

/-- A full run of `main` after the consumer is created (lines 171-202 of
writer.py). `oracle k` tells whether the `k`-th call of
`write_batch_to_delta` succeeds (`write_deltalake` is an external call).
The first failing in-loop write raises out of the `for` loop into the
`except Exception` handler, which only logs; the `finally` block then
writes any remaining `batch` once, and an exception there propagates out
of `main` for a non-zero exit, skipping `consumer.close()` (whose own
auto-commit otherwise marks all consumed offsets committed). Runs whose
input list is exhausted model a shutdown signal ending the iteration. -/
def runLoop (lib : PyLib) (oracle : Nat → Bool) (bs bt startTime : Nat)
    (inputs : List PollInput) : RunResult :=
  let r := loopGo lib oracle bs bt inputs ⟨[], startTime, [], 0, 0⟩ 0
  let s := r.1
  let k := r.2.1
  match s.batch with
  | [] => ⟨s.written, [], { s with committed := s.consumed }, .zero⟩
  | b =>
      if oracle k then
        ⟨s.written ++ [b], [],
         { s with batch := [], written := s.written ++ [b], committed := s.consumed }, .zero⟩
      else
        ⟨s.written, b, s, .nonzero⟩

/-- The events a list of poll inputs normalizes to, in order (the records
the loop absorbs into batches). -/
def evsOf (lib : PyLib) (inputs : List PollInput) : List JFields :=
  inputs.filterMap fun inp => parse_event lib inp.nowTs inp.msg

/-- The committed offset produced by the auto-commits alone: starting from
`n` consumed messages and a committed offset `acc`, each poll input with
`autocommit` set commits the number of messages consumed before it. This
is a function of the poll inputs only. -/
def autoMark : List PollInput → Nat → Nat → Nat
  | [], _, acc => acc
  | inp :: rest, n, acc => autoMark rest (n + 1) (if inp.autocommit then n else acc)

/-- Outcome of `wait_for_kafka` (lines 43-65 of writer.py): the returned
boolean, the number of connection attempts made, and the total seconds
spent in `time.sleep`. -/
structure WaitResult where
  ok : Bool
  attempts : Nat
  sleepSecs : Nat
deriving DecidableEq, Repr

/-- The `for attempt in range(max_retries)` loop of `wait_for_kafka`:
`connect a` tells whether the `KafkaConsumer` construction on attempt `a`
succeeds (it raises otherwise); a failed attempt sleeps `retry_delay = 5`
seconds only while `attempt < max_retries - 1`. The fuel argument is the
number of loop iterations left. -/
def waitGo (connect : Nat → Bool) (maxr : Nat) : Nat → Nat → Nat → WaitResult
  | 0, _, secs => ⟨false, maxr, secs⟩
  | fuel + 1, attempt, secs =>
      if connect attempt then ⟨true, attempt + 1, secs⟩
      else waitGo connect maxr fuel (attempt + 1)
        (if attempt < maxr - 1 then secs + 5 else secs)

/-- Lines 43-65 of writer.py: `max_retries = 30`, `retry_delay = 5`. -/
def wait_for_kafka (connect : Nat → Bool) : WaitResult :=
  waitGo connect 30 30 0 0

/-- Lines 152-155 of writer.py: when `wait_for_kafka` returns `False`,
`main` logs and returns `None` normally, so the interpreter exits with
status zero; otherwise startup proceeds (`none`). -/
def startupOutcome (connect : Nat → Bool) : Option ProcExit :=
  if (wait_for_kafka connect).ok then none else some .zero

/-- A poll input carrying a decodable, normalizable message (an empty JSON
object), observed at wall-clock second `t`, with no client auto-commit. -/
def pollOk (t : Nat) : PollInput :=
  ⟨t, 0, some (.obj .nil), false⟩

/-- The record `parse_event` produces from an empty JSON object under
`testLib` at instant 0. -/
def ev0 : JFields := JFields.ofList
  [("timestamp", .str "T0"), ("channel", .str "unknown"),
   ("platform", .str ""), ("event_type", .str "unknown"),
   ("event_category", .str ""), ("resource_id", .str ""),
   ("resource_title", .str ""), ("interaction_target", .str ""),
   ("session_id", .str ""), ("user_id", .str ""), ("device_id", .str ""),
   ("user_agent", .str ""), ("client_version", .str ""),
   ("interaction_value", .null), ("interaction_text", .str ""),
   ("metadata", .str "\x7b\x7d")]

/-- The record `parse_event` produces under `testLib` at instant 0 from a
JSON object carrying only the extra key `custom_field`. -/
def evX : JFields := JFields.ofList
  [("custom_field", .str "x"),
   ("timestamp", .str "T0"), ("channel", .str "unknown"),
   ("platform", .str ""), ("event_type", .str "unknown"),
   ("event_category", .str ""), ("resource_id", .str ""),
   ("resource_title", .str ""), ("interaction_target", .str ""),
   ("session_id", .str ""), ("user_id", .str ""), ("device_id", .str ""),
   ("user_agent", .str ""), ("client_version", .str ""),
   ("interaction_value", .null), ("interaction_text", .str ""),
   ("metadata", .str "\x7b\x7d")]


/-! ## Dictionary lemmas -/

theorem lookup_setk_self : (e : JFields) → (k : String) → (v : JVal) →
    (e.setk k v).lookup k = some v
  | .nil, k, v => by simp [JFields.setk, JFields.lookup]
  | .cons k2 v2 rest, k, v => by
      by_cases h : k2 = k <;>
        simp [JFields.setk, JFields.lookup, h, lookup_setk_self rest k v]

theorem lookup_setk_ne : {e : JFields} → {k2 k : String} → {v : JVal} → k2 ≠ k →
    (e.setk k2 v).lookup k = e.lookup k
  | .nil, k2, k, v, h => by simp [JFields.setk, JFields.lookup, h]
  | .cons k3 v3 rest, k2, k, v, h => by
      by_cases h3 : k3 = k2
      · subst h3
        simp [JFields.setk, JFields.lookup, h]
      · simp [JFields.setk, JFields.lookup, h3, lookup_setk_ne (e := rest) h]

theorem lookup_setdefault_ne : {e : JFields} → {k2 k : String} → {v : JVal} → k2 ≠ k →
    (e.setdefault k2 v).lookup k = e.lookup k
  | .nil, k2, k, v, h => by simp [JFields.setdefault, JFields.lookup, h]
  | .cons k3 v3 rest, k2, k, v, h => by
      by_cases h3 : k3 = k2
      · subst h3
        simp [JFields.setdefault, JFields.lookup, h]
      · simp [JFields.setdefault, JFields.lookup, h3, lookup_setdefault_ne (e := rest) h]

theorem lookup_setdefault_self : (e : JFields) → (k : String) → (v : JVal) →
    (e.setdefault k v).lookup k = some ((e.lookup k).getD v)
  | .nil, k, v => by simp [JFields.setdefault, JFields.lookup]
  | .cons k2 v2 rest, k, v => by
      by_cases h : k2 = k <;>
        simp [JFields.setdefault, JFields.lookup, h, lookup_setdefault_self rest k v]

theorem setdefault_of_lookup : {e : JFields} → {k : String} → {v0 : JVal} → (v : JVal) →
    e.lookup k = some v0 → e.setdefault k v = e
  | .nil, k, v0, v, h => by simp [JFields.lookup] at h
  | .cons k2 v2 rest, k, v0, v, h => by
      by_cases h2 : k2 = k
      · simp [JFields.setdefault, h2]
      · simp [JFields.lookup, h2] at h
        simp [JFields.setdefault, h2, setdefault_of_lookup (e := rest) v h]

theorem setk_of_lookup : {e : JFields} → {k : String} → {v : JVal} →
    e.lookup k = some v → e.setk k v = e
  | .nil, k, v, h => by simp [JFields.lookup] at h
  | .cons k2 v2 rest, k, v, h => by
      by_cases h2 : k2 = k
      · subst h2
        simp [JFields.lookup] at h
        simp [JFields.setk, h]
      · simp [JFields.lookup, h2] at h
        simp [JFields.setk, h2, setk_of_lookup (e := rest) h]

theorem lookup_setk_isSome {e : JFields} {k : String} (k2 : String) (v : JVal)
    (h : (e.lookup k).isSome) : ((e.setk k2 v).lookup k).isSome := by
  by_cases h2 : k2 = k
  · subst h2
    simp [lookup_setk_self]
  · rwa [lookup_setk_ne h2]

theorem lookup_setdefault_isSome_self (e : JFields) (k : String) (v : JVal) :
    ((e.setdefault k v).lookup k).isSome := by
  rw [lookup_setdefault_self]
  simp

theorem lookup_setdefault_isSome {e : JFields} {k : String} (k2 : String) (v : JVal)
    (h : (e.lookup k).isSome) : ((e.setdefault k2 v).lookup k).isSome := by
  by_cases h2 : k2 = k
  · subst h2
    exact lookup_setdefault_isSome_self _ _ v
  · rwa [lookup_setdefault_ne h2]

/-! ## Characterization of the normalization steps -/

theorem normalizeTimestamp_eq (lib : PyLib) (now : Int) (e : JFields) :
    normalizeTimestamp lib now e
      = e.setk "timestamp" (.str (lib.isoformat ((tsParseOk lib e).getD now))) := by
  unfold normalizeTimestamp tsParseOk
  cases h : e.lookup "timestamp" with
  | none => simp
  | some v =>
      cases v with
      | str s =>
          by_cases hs : s = ""
          · simp [JVal.truthy, hs]
          · cases hp : lib.fromisoformat (replaceZ s) <;> simp [JVal.truthy, hs, hp]
      | num n => simp [JVal.truthy, ite_self]
      | bool b => simp [JVal.truthy, ite_self]
      | null => simp [JVal.truthy]
      | obj fs => cases fs <;> simp [JVal.truthy, ite_self]
      | arr es => cases es <;> simp [JVal.truthy, ite_self]

theorem normalizeMetadata_eq (e : JFields) :
    normalizeMetadata e = e.setk "metadata" (.str (metaOut e)) := by
  unfold normalizeMetadata metaOut
  cases h : e.lookup "metadata" with
  | none => simp
  | some v => cases v <;> simp

theorem lookup_applyDefaults_ne (e : JFields) (k : String)
    (h : ¬ k ∈ defaultedKeys) : (applyDefaults e).lookup k = e.lookup k := by
  simp only [defaultedKeys, List.mem_cons, List.not_mem_nil, or_false, not_or] at h
  obtain ⟨h1, h2, h3, h4, h5, h6, h7, h8, h9, h10, h11, h12, h13, h14⟩ := h
  simp only [applyDefaults]
  rw [lookup_setdefault_ne (Ne.symm h14), lookup_setdefault_ne (Ne.symm h13),
    lookup_setdefault_ne (Ne.symm h12), lookup_setdefault_ne (Ne.symm h11),
    lookup_setdefault_ne (Ne.symm h10), lookup_setdefault_ne (Ne.symm h9),
    lookup_setdefault_ne (Ne.symm h8), lookup_setdefault_ne (Ne.symm h7),
    lookup_setdefault_ne (Ne.symm h6), lookup_setdefault_ne (Ne.symm h5),
    lookup_setdefault_ne (Ne.symm h4), lookup_setdefault_ne (Ne.symm h3),
    lookup_setdefault_ne (Ne.symm h2), lookup_setdefault_ne (Ne.symm h1)]

theorem lookup_applyDefaults_isSome (e : JFields) (k : String)
    (h : k ∈ defaultedKeys) : ((applyDefaults e).lookup k).isSome := by
  simp only [defaultedKeys, List.mem_cons, List.not_mem_nil, or_false] at h
  simp only [applyDefaults]
  rcases h with rfl | rfl | rfl | rfl | rfl | rfl | rfl | rfl | rfl | rfl | rfl | rfl | rfl | rfl
  · iterate 13 apply lookup_setdefault_isSome
    exact lookup_setdefault_isSome_self _ _ _
  · iterate 12 apply lookup_setdefault_isSome
    exact lookup_setdefault_isSome_self _ _ _
  · iterate 11 apply lookup_setdefault_isSome
    exact lookup_setdefault_isSome_self _ _ _
  · iterate 10 apply lookup_setdefault_isSome
    exact lookup_setdefault_isSome_self _ _ _
  · iterate 9 apply lookup_setdefault_isSome
    exact lookup_setdefault_isSome_self _ _ _
  · iterate 8 apply lookup_setdefault_isSome
    exact lookup_setdefault_isSome_self _ _ _
  · iterate 7 apply lookup_setdefault_isSome
    exact lookup_setdefault_isSome_self _ _ _
  · iterate 6 apply lookup_setdefault_isSome
    exact lookup_setdefault_isSome_self _ _ _
  · iterate 5 apply lookup_setdefault_isSome
    exact lookup_setdefault_isSome_self _ _ _
  · iterate 4 apply lookup_setdefault_isSome
    exact lookup_setdefault_isSome_self _ _ _
  · iterate 3 apply lookup_setdefault_isSome
    exact lookup_setdefault_isSome_self _ _ _
  · iterate 2 apply lookup_setdefault_isSome
    exact lookup_setdefault_isSome_self _ _ _
  · iterate 1 apply lookup_setdefault_isSome
    exact lookup_setdefault_isSome_self _ _ _
  · exact lookup_setdefault_isSome_self _ _ _

theorem parse_event_obj (lib : PyLib) (nowTs : Int) (fields : JFields) :
    parse_event lib nowTs (some (.obj fields))
      = some (normalizeMetadata (applyDefaults (normalizeTimestamp lib nowTs fields))) := rfl

theorem lookup_parse_timestamp (lib : PyLib) (nowTs : Int) (fields : JFields) :
    (normalizeMetadata (applyDefaults (normalizeTimestamp lib nowTs fields))).lookup "timestamp"
      = some (.str (lib.isoformat ((tsParseOk lib fields).getD nowTs))) := by
  rw [normalizeMetadata_eq, lookup_setk_ne (by decide : "metadata" ≠ "timestamp"),
    lookup_applyDefaults_ne _ _ (by decide), normalizeTimestamp_eq, lookup_setk_self]

theorem lookup_parse_defaulted_isSome (lib : PyLib) (nowTs : Int) (fields : JFields)
    (k : String) (h : k ∈ defaultedKeys) :
    ((normalizeMetadata (applyDefaults (normalizeTimestamp lib nowTs fields))).lookup k).isSome := by
  rw [normalizeMetadata_eq]
  exact lookup_setk_isSome _ _ (lookup_applyDefaults_isSome _ _ h)

theorem applyDefaults_of_complete (e : JFields)
    (h : ∀ k ∈ defaultedKeys, (e.lookup k).isSome) : applyDefaults e = e := by
  obtain ⟨v1, hv1⟩ := Option.isSome_iff_exists.mp (h "channel" (by decide))
  obtain ⟨v2, hv2⟩ := Option.isSome_iff_exists.mp (h "platform" (by decide))
  obtain ⟨v3, hv3⟩ := Option.isSome_iff_exists.mp (h "event_type" (by decide))
  obtain ⟨v4, hv4⟩ := Option.isSome_iff_exists.mp (h "event_category" (by decide))
  obtain ⟨v5, hv5⟩ := Option.isSome_iff_exists.mp (h "resource_id" (by decide))
  obtain ⟨v6, hv6⟩ := Option.isSome_iff_exists.mp (h "resource_title" (by decide))
  obtain ⟨v7, hv7⟩ := Option.isSome_iff_exists.mp (h "interaction_target" (by decide))
  obtain ⟨v8, hv8⟩ := Option.isSome_iff_exists.mp (h "session_id" (by decide))
  obtain ⟨v9, hv9⟩ := Option.isSome_iff_exists.mp (h "user_id" (by decide))
  obtain ⟨v10, hv10⟩ := Option.isSome_iff_exists.mp (h "device_id" (by decide))
  obtain ⟨v11, hv11⟩ := Option.isSome_iff_exists.mp (h "user_agent" (by decide))
  obtain ⟨v12, hv12⟩ := Option.isSome_iff_exists.mp (h "client_version" (by decide))
  obtain ⟨v13, hv13⟩ := Option.isSome_iff_exists.mp (h "interaction_value" (by decide))
  obtain ⟨v14, hv14⟩ := Option.isSome_iff_exists.mp (h "interaction_text" (by decide))
  simp only [applyDefaults]
  rw [setdefault_of_lookup _ hv1, setdefault_of_lookup _ hv2,
    setdefault_of_lookup _ hv3, setdefault_of_lookup _ hv4,
    setdefault_of_lookup _ hv5, setdefault_of_lookup _ hv6,
    setdefault_of_lookup _ hv7, setdefault_of_lookup _ hv8,
    setdefault_of_lookup _ hv9, setdefault_of_lookup _ hv10,
    setdefault_of_lookup _ hv11, setdefault_of_lookup _ hv12,
    setdefault_of_lookup _ hv13, setdefault_of_lookup _ hv14]

/-! ## Loop-state bookkeeping lemmas -/

@[simp] theorem consumeMark_batch (inp : PollInput) (s : IngestState) :
    (consumeMark inp s).batch = s.batch := by
  simp only [consumeMark]
  split <;> rfl

@[simp] theorem consumeMark_written (inp : PollInput) (s : IngestState) :
    (consumeMark inp s).written = s.written := by
  simp only [consumeMark]
  split <;> rfl

@[simp] theorem consumeMark_lastBatchTime (inp : PollInput) (s : IngestState) :
    (consumeMark inp s).lastBatchTime = s.lastBatchTime := by
  simp only [consumeMark]
  split <;> rfl

@[simp] theorem consumeMark_consumed (inp : PollInput) (s : IngestState) :
    (consumeMark inp s).consumed = s.consumed + 1 := by
  simp only [consumeMark]
  split <;> rfl

theorem consumeMark_committed (inp : PollInput) (s : IngestState) :
    (consumeMark inp s).committed
      = if inp.autocommit then s.consumed else s.committed := by
  simp only [consumeMark]
  split <;> rfl

theorem normalizeTimestamp_fixed (lib : PyLib) (now2 : Int) (e : JFields)
    (s0 : String) (d : Int)
    (htsv : e.lookup "timestamp" = some (.str s0)) (hne : s0 ≠ "")
    (hd1 : lib.fromisoformat (replaceZ s0) = some d) (hd2 : lib.isoformat d = s0) :
    normalizeTimestamp lib now2 e = e := by
  have htp : tsParseOk lib e = some d := by
    simp only [tsParseOk, htsv]
    rw [if_neg hne]
    exact hd1
  rw [normalizeTimestamp_eq, htp]
  simp only [Option.getD_some]
  rw [hd2]
  exact setk_of_lookup htsv

/-! ## Claims about normalization -/

/-- C2: writer.py `parse_event` fills ABSENT fields with defaults via
`dict.setdefault`, but `setdefault` leaves a key that is present with value
`None` untouched, so explicitly null `user_id` and `interaction_target`
remain null in the output record — contradicting the spec and the
test simulation in the repository (test_writer.py lines 152-172), which
includes a convert-None-to-empty-string pass over the string fields and
asserts no string field is `None` afterwards. This theorem evaluates the
code at the failing input. -/
theorem C2_explicit_nulls_survive :
    (parse_event testLib 0 (some (.obj (JFields.ofList
        [("user_id", JVal.null), ("interaction_target", JVal.null)])))).bind
      (fun e => e.lookup "user_id") = some JVal.null
    ∧ (parse_event testLib 0 (some (.obj (JFields.ofList
        [("user_id", JVal.null), ("interaction_target", JVal.null)])))).bind
      (fun e => e.lookup "interaction_target") = some JVal.null := by
  exact ⟨by decide, by decide⟩

/-- C5 counterexample: normalization is not idempotent. Normalizing a
record whose metadata is the object `{"a": 1}` serializes the metadata to
the string `"\x7ba\x22: 1\x7d"`-like text; normalizing the (serialized and
re-decoded) result again finds a string — not a dict or list — under
`metadata` and replaces it with the serialized empty structure, so the
second pass changes the record. -/
theorem C5_not_idempotent_cex :
    (parse_event testLib 0 (some (.obj (JFields.ofList
        [("metadata", .obj (.cons "a" (.num 1) .nil))])))).bind
      (fun e1 => parse_event testLib 0 (some (.obj e1)))
    ≠ parse_event testLib 0 (some (.obj (JFields.ofList
        [("metadata", .obj (.cons "a" (.num 1) .nil))]))) := by decide

/-- C5 (amended): normalization is idempotent exactly on normalized records
whose metadata is the serialized empty structure; given that the record is
a `parse_event` output, its metadata field is the empty-structure string,
and its timestamp string round-trips through the datetime library, a
second normalization returns the record unchanged. -/
theorem C5_renormalize_identity_on_empty_metadata (lib : PyLib) (now now2 : Int)
    (fields e : JFields)
    (hp : parse_event lib now (some (.obj fields)) = some e)
    (hmeta : e.lookup "metadata" = some (.str "\x7b\x7d"))
    (hts : ∀ s, e.lookup "timestamp" = some (.str s) →
      s ≠ "" ∧ ∃ d, lib.fromisoformat (replaceZ s) = some d ∧ lib.isoformat d = s) :
    parse_event lib now2 (some (.obj e)) = some e := by
  rw [parse_event_obj] at hp
  have he := (Option.some.inj hp).symm
  have htsv : e.lookup "timestamp"
      = some (.str (lib.isoformat ((tsParseOk lib fields).getD now))) := by
    rw [he]
    exact lookup_parse_timestamp lib now fields
  obtain ⟨hne, d, hd1, hd2⟩ := hts _ htsv
  have hpres : ∀ k ∈ defaultedKeys, (e.lookup k).isSome := by
    intro k hk
    rw [he]
    exact lookup_parse_defaulted_isSome lib now fields k hk
  have h1 : normalizeTimestamp lib now2 e = e :=
    normalizeTimestamp_fixed lib now2 e _ d htsv hne hd1 hd2
  have h2 : applyDefaults e = e := applyDefaults_of_complete e hpres
  have hmv : metaOut e = "\x7b\x7d" := by
    simp only [metaOut, hmeta]
  have h3 : normalizeMetadata e = e := by
    rw [normalizeMetadata_eq, hmv]
    exact setk_of_lookup hmeta
  rw [parse_event_obj, h1, h2, h3]

/-- Witness for C5 (amended): re-normalizing the concrete normalized record
`ev0` (whose metadata is the empty structure) is the identity. -/
theorem C5_renormalize_witness :
    parse_event testLib 0 (some (.obj ev0)) = some ev0 :=
  C5_renormalize_identity_on_empty_metadata testLib 0 0 JFields.nil ev0
    (by decide) (by decide)
    (by
      intro s hs
      have h0 : ev0.lookup "timestamp" = some (JVal.str "T0") := by decide
      rw [h0] at hs
      injection hs with hs2
      injection hs2 with hs3
      subst hs3
      exact ⟨by decide, 0, by decide, by decide⟩)

/-- C8: the timestamp policy of `parse_event`. When the `timestamp` field
does not yield an instant (absent, falsy such as the empty string, not a
string, or failing ISO-8601 parsing after replacing the literal Z with a
UTC offset — `tsParseOk lib fields = none`), the output timestamp is the
serialized current wall-clock instant `nowTs`, which parses back and is no
earlier than the process start instant; when the field does parse to `dt`,
that instant is preserved re-serialized. -/
theorem C8_timestamp_fallback_policy (lib : PyLib) (nowTs startTs : Int)
    (fields e : JFields)
    (hp : parse_event lib nowTs (some (.obj fields)) = some e)
    (hrt : lib.fromisoformat (replaceZ (lib.isoformat nowTs)) = some nowTs)
    (hstart : startTs ≤ nowTs) :
    (tsParseOk lib fields = none →
      e.lookup "timestamp" = some (.str (lib.isoformat nowTs))
        ∧ ∃ t, lib.fromisoformat (replaceZ (lib.isoformat nowTs)) = some t ∧ startTs ≤ t)
    ∧ ∀ dt, tsParseOk lib fields = some dt →
        e.lookup "timestamp" = some (.str (lib.isoformat dt)) := by
  rw [parse_event_obj] at hp
  have he := (Option.some.inj hp).symm
  subst he
  constructor
  · intro h0
    rw [lookup_parse_timestamp, h0]
    exact ⟨rfl, nowTs, hrt, hstart⟩
  · intro dt hdt
    rw [lookup_parse_timestamp, hdt]
    rfl

/-- Witness for C8: with the timestamp absent, the output carries the
serialized current instant. -/
theorem C8_timestamp_witness :
    ev0.lookup "timestamp" = some (.str (testLib.isoformat 0)) :=
  ((C8_timestamp_fallback_policy testLib 0 0 JFields.nil ev0
    (by decide) (by decide) (by decide)).1 (by decide)).1

/-- C9: a message that decodes to nothing (`json.loads` raises) or to a
non-object JSON value is rejected by `parse_event` (returns `None`, never
raising out of it), and the consume loop drops exactly that message —
the iteration continues with the rest of the inputs, the batch, written
batches and write-attempt counter unchanged; only the consumed/committed
bookkeeping advances. -/
theorem C9_malformed_dropped_loop_continues (lib : PyLib) (nowTs : Int) :
    parse_event lib nowTs none = none
    ∧ (∀ v : JVal, (∀ fs : JFields, v ≠ .obj fs) → parse_event lib nowTs (some v) = none)
    ∧ (∀ (oracle : Nat → Bool) (bs bt : Nat) (inp : PollInput) (rest : List PollInput)
        (s : IngestState) (k : Nat),
        parse_event lib inp.nowTs inp.msg = none →
        loopGo lib oracle bs bt (inp :: rest) s k
          = loopGo lib oracle bs bt rest (consumeMark inp s) k) := by
  refine ⟨rfl, ?_, ?_⟩
  · intro v h
    cases v with
    | obj fs => exact absurd rfl (h fs)
    | str s => rfl
    | num n => rfl
    | bool b => rfl
    | null => rfl
    | arr es => rfl
  · intro oracle bs bt inp rest s k hnone
    simp only [loopGo, hnone]

/-- Witness for C9: a string-valued message is dropped and the loop step
reduces to the loop on the remaining input. -/
theorem C9_malformed_witness :
    loopGo testLib (fun _ => true) 100 10
      [⟨0, 0, some (.str "oops"), false⟩] ⟨[], 0, [], 0, 0⟩ 0
      = loopGo testLib (fun _ => true) 100 10 []
          (consumeMark ⟨0, 0, some (.str "oops"), false⟩ ⟨[], 0, [], 0, 0⟩) 0 :=
  (C9_malformed_dropped_loop_continues testLib 0).2.2 (fun _ => true) 100 10
    ⟨0, 0, some (.str "oops"), false⟩ [] ⟨[], 0, [], 0, 0⟩ 0 (by decide)

/-- C10: `parse_event` only fills in missing known fields — a key outside
the fixed section-3 schema survives with its value unchanged — and the
`pd.DataFrame` column inference of `write_batch_to_delta` therefore gives
batches with different column sets for events with different extra keys
(shown on two concrete one-event batches). -/
theorem C10_extra_keys_preserved (lib : PyLib) (nowTs : Int) (fields e : JFields)
    (k : String) (v : JVal) (hk : ¬ k ∈ fixedFields)
    (hv : fields.lookup k = some v)
    (hp : parse_event lib nowTs (some (.obj fields)) = some e) :
    e.lookup k = some v
    ∧ dfColumns (parse_event testLib 0 (some (.obj (JFields.ofList
          [("custom_field", .str "x")])))).toList
      ≠ dfColumns (parse_event testLib 0 (some (.obj .nil))).toList := by
  constructor
  · have ht : "timestamp" ≠ k := fun hcon => hk (hcon ▸ (by decide : "timestamp" ∈ fixedFields))
    have hm : "metadata" ≠ k := fun hcon => hk (hcon ▸ (by decide : "metadata" ∈ fixedFields))
    have hd : ¬ k ∈ defaultedKeys := fun hcon =>
      hk ((by decide : ∀ x ∈ defaultedKeys, x ∈ fixedFields) k hcon)
    rw [parse_event_obj] at hp
    have he := (Option.some.inj hp).symm
    subst he
    rw [normalizeMetadata_eq, lookup_setk_ne hm, lookup_applyDefaults_ne _ _ hd,
      normalizeTimestamp_eq, lookup_setk_ne ht]
    exact hv
  · decide

/-- Witness for C10: the concrete extra key `custom_field` survives
normalization with its value. -/
theorem C10_extra_keys_witness : evX.lookup "custom_field" = some (JVal.str "x") :=
  (C10_extra_keys_preserved testLib 0
    (JFields.ofList [("custom_field", .str "x")]) evX "custom_field" (.str "x")
    (by decide) (by decide) (by decide)).1

/-! ## Claims about the consume loop -/

theorem loopGo_batch_bound (lib : PyLib) (oracle : Nat → Bool) (bs bt : Nat)
    (inputs : List PollInput) :
    ∀ (s : IngestState) (k : Nat),
      s.batch.length < bs → (∀ b ∈ s.written, b.length ≤ bs) →
      (loopGo lib oracle bs bt inputs s k).1.batch.length ≤ bs
        ∧ ∀ b ∈ (loopGo lib oracle bs bt inputs s k).1.written, b.length ≤ bs := by
  induction inputs with
  | nil =>
      intro s k hb hw
      exact ⟨Nat.le_of_lt hb, hw⟩
  | cons inp rest ih =>
      intro s k hb hw
      simp only [loopGo]
      split
      case _ hpe =>
        exact ih (consumeMark inp s) k (by simpa using hb) (by simpa using hw)
      case _ e hpe =>
          by_cases htr : bs ≤ (s.batch ++ [e]).length ∨ bt ≤ inp.time - s.lastBatchTime
          · rw [if_pos htr]
            by_cases hok : oracle k = true
            · rw [if_pos hok]
              refine ih _ (k + 1) ?_ ?_
              · simpa using Nat.lt_of_le_of_lt (Nat.zero_le _) hb
              · intro b hbmem
                simp only [List.mem_append, List.mem_singleton] at hbmem
                rcases hbmem with hbmem | rfl
                · exact hw b hbmem
                · simp only [List.length_append, List.length_singleton]
                  omega
            · rw [if_neg hok]
              refine ⟨?_, hw⟩
              simp only [List.length_append, List.length_singleton]
              omega
          · rw [if_neg htr]
            refine ih _ k ?_ (by simpa using hw)
            push_neg at htr
            exact htr.1

/-- C7: size-triggered flushing. In any run started with an empty batch, no
batch handed to `write_batch_to_delta` (including the shutdown drain)
exceeds the configured maximum batch size; and concretely, 150 valid
events arriving with no delay (all at the start instant, so the age
trigger stays false) yield a first in-loop append of exactly the first 100
events in consumption order with the remaining 50 still buffered, the
second append happening only at the drain. -/
theorem C7_size_flush_bound_and_scenario (lib : PyLib) (oracle : Nat → Bool)
    (bs bt t0 : Nat) (inputs : List PollInput) (hbs : 0 < bs) :
    (∀ b ∈ (runLoop lib oracle bs bt t0 inputs).appends, b.length ≤ bs)
    ∧ (loopGo testLib (fun _ => true) 100 10 (List.replicate 150 (pollOk 0))
        ⟨[], 0, [], 0, 0⟩ 0).1.written = [List.replicate 100 ev0]
    ∧ (loopGo testLib (fun _ => true) 100 10 (List.replicate 150 (pollOk 0))
        ⟨[], 0, [], 0, 0⟩ 0).1.batch = List.replicate 50 ev0
    ∧ (runLoop testLib (fun _ => true) 100 10 0 (List.replicate 150 (pollOk 0))).appends
        = [List.replicate 100 ev0, List.replicate 50 ev0] := by
  refine ⟨?_, by decide, by decide, by decide⟩
  intro b hbmem
  have h := loopGo_batch_bound lib oracle bs bt inputs ⟨[], t0, [], 0, 0⟩ 0
    (by simpa using hbs) (by simp)
  cases hsb : (loopGo lib oracle bs bt inputs ⟨[], t0, [], 0, 0⟩ 0).1.batch with
  | nil =>
      simp only [runLoop, hsb] at hbmem
      exact h.2 b hbmem
  | cons hd tl =>
      simp only [runLoop, hsb] at hbmem
      by_cases hok : oracle (loopGo lib oracle bs bt inputs ⟨[], t0, [], 0, 0⟩ 0).2.1 = true
      · rw [if_pos hok] at hbmem
        simp only [List.mem_append, List.mem_singleton] at hbmem
        rcases hbmem with hbmem | rfl
        · exact h.2 b hbmem
        · have := h.1
          rw [hsb] at this
          exact this
      · rw [if_neg hok] at hbmem
        exact h.2 b hbmem

/-- Witness for C7: the concrete scenario extracted through the theorem. -/
theorem C7_size_flush_witness :
    (runLoop testLib (fun _ => true) 100 10 0 (List.replicate 150 (pollOk 0))).appends
      = [List.replicate 100 ev0, List.replicate 50 ev0] :=
  (C7_size_flush_bound_and_scenario testLib (fun _ => true) 100 10 0
    (List.replicate 150 (pollOk 0)) (by decide)).2.2.2

/-- C3 counterexample: there is no background timer. After 50 valid events
arrive at second 0 (batch size 100, batch age 10), the loop state has an
empty `written` list and the 50 records still buffered; the loop executes
nothing further until the consumer returns another message, so this state
persists through the whole 11-second wait of Scenario A and no append call
carrying those 50 events occurs when the age elapses. -/
theorem C3_no_flush_while_idle_cex :
    (loopGo testLib (fun _ => true) 100 10 (List.replicate 50 (pollOk 0))
        ⟨[], 0, [], 0, 0⟩ 0).1.written = []
    ∧ (loopGo testLib (fun _ => true) 100 10 (List.replicate 50 (pollOk 0))
        ⟨[], 0, [], 0, 0⟩ 0).1.batch = List.replicate 50 ev0 := by
  exact ⟨by decide, by decide⟩

/-- C3 (amended): the age trigger is evaluated only when a later message is
absorbed. If a valid message is absorbed at a wall-clock instant at least
the configured batch age after the last flush, the loop flushes at that
point, appending all buffered events together with the new one; buffered
events see no append before such a message (or the shutdown drain). -/
theorem C3_age_flush_only_on_next_event (lib : PyLib) (oracle : Nat → Bool)
    (bs bt : Nat) (inp : PollInput) (rest : List PollInput)
    (s : IngestState) (k : Nat) (e : JFields)
    (hp : parse_event lib inp.nowTs inp.msg = some e)
    (hage : bt ≤ inp.time - s.lastBatchTime)
    (hok : oracle k = true) :
    loopGo lib oracle bs bt (inp :: rest) s k
      = loopGo lib oracle bs bt rest
          ⟨[], inp.time, s.written ++ [s.batch ++ [e]],
           (consumeMark inp s).consumed, (consumeMark inp s).committed⟩ (k + 1) := by
  simp only [loopGo, hp]
  rw [if_pos (Or.inr hage), if_pos hok]

/-- Witness for C3 (amended): 50 buffered events and a fresh valid event
arriving at second 11 produce one append of all 51 events. -/
theorem C3_age_flush_witness :
    loopGo testLib (fun _ => true) 100 10 [pollOk 11]
        ⟨List.replicate 50 ev0, 0, [], 50, 0⟩ 0
      = loopGo testLib (fun _ => true) 100 10 []
          ⟨[], 11, [] ++ [List.replicate 50 ev0 ++ [ev0]],
           (consumeMark (pollOk 11) ⟨List.replicate 50 ev0, 0, [], 50, 0⟩).consumed,
           (consumeMark (pollOk 11) ⟨List.replicate 50 ev0, 0, [], 50, 0⟩).committed⟩ 1 :=
  C3_age_flush_only_on_next_event testLib (fun _ => true) 100 10 (pollOk 11) []
    ⟨List.replicate 50 ev0, 0, [], 50, 0⟩ 0 ev0 (by decide) (by decide) rfl

/-- C1 counterexample: with `enable_auto_commit=True` the client commits
during polling. Two valid messages, the second fetch carrying an
auto-commit: in the reachable loop state after the second fetch, the
offset of the first consumed message is committed (committed = 1) while no
batch has been appended (written = []) and both records still sit in the
in-memory batch — an offset committed before the append of the batch
holding its record. -/
theorem C1_commit_before_write_cex :
    (loopGo testLib (fun _ => true) 100 10
        [⟨0, 0, some (.obj .nil), false⟩, ⟨1, 0, some (.obj .nil), true⟩]
        ⟨[], 0, [], 0, 0⟩ 0).1.committed = 1
    ∧ (loopGo testLib (fun _ => true) 100 10
        [⟨0, 0, some (.obj .nil), false⟩, ⟨1, 0, some (.obj .nil), true⟩]
        ⟨[], 0, [], 0, 0⟩ 0).1.written = []
    ∧ (loopGo testLib (fun _ => true) 100 10
        [⟨0, 0, some (.obj .nil), false⟩, ⟨1, 0, some (.obj .nil), true⟩]
        ⟨[], 0, [], 0, 0⟩ 0).1.batch.length = 2 := by
  refine ⟨by decide, by decide, by decide⟩

/-- C1 (amended): the loop body never commits the consumption position; in
a run whose writes all succeed, the committed position after processing
any input list equals `autoMark` of the inputs — a function of the poll
inputs (the auto-commit schedule of the Kafka client) alone, the same for
every library instantiation and batch configuration, and in particular
independent of which batches have been appended. -/
theorem C1_commit_decoupled_from_writes (lib : PyLib) (oracle : Nat → Bool)
    (bs bt : Nat) (inputs : List PollInput) (horacle : ∀ j, oracle j = true) :
    ∀ (s : IngestState) (k : Nat),
      (loopGo lib oracle bs bt inputs s k).1.committed
        = autoMark inputs s.consumed s.committed := by
  induction inputs with
  | nil => intro s k; rfl
  | cons inp rest ih =>
      intro s k
      simp only [loopGo, autoMark]
      split
      case _ hpe =>
        rw [ih]
        simp [consumeMark_consumed, consumeMark_committed]
      case _ e hpe =>
        by_cases htr : bs ≤ (s.batch ++ [e]).length ∨ bt ≤ inp.time - s.lastBatchTime
        · rw [if_pos htr, if_pos (horacle k), ih]
          simp [consumeMark_consumed, consumeMark_committed]
        · rw [if_neg htr, ih]
          simp [consumeMark_consumed, consumeMark_committed]

/-- Witness for C1 (amended): the committed position of a concrete
all-writes-succeed run equals the auto-commit schedule value. -/
theorem C1_commit_decoupled_witness :
    (loopGo testLib (fun _ => true) 100 10
        [⟨0, 0, some (.obj .nil), false⟩, ⟨1, 0, some (.obj .nil), true⟩]
        ⟨[], 0, [], 0, 0⟩ 0).1.committed
      = autoMark [⟨0, 0, some (.obj .nil), false⟩, ⟨1, 0, some (.obj .nil), true⟩] 0 0 :=
  C1_commit_decoupled_from_writes testLib (fun _ => true) 100 10
    [⟨0, 0, some (.obj .nil), false⟩, ⟨1, 0, some (.obj .nil), true⟩]
    (fun _ => rfl) ⟨[], 0, [], 0, 0⟩ 0

theorem loopGo_events (lib : PyLib) (oracle : Nat → Bool) (bs bt : Nat)
    (inputs : List PollInput) :
    ∀ (s : IngestState) (k : Nat),
      ∃ pre, inputs = pre ++ (loopGo lib oracle bs bt inputs s k).2.2.2
        ∧ (loopGo lib oracle bs bt inputs s k).1.written.flatten
            ++ (loopGo lib oracle bs bt inputs s k).1.batch
          = s.written.flatten ++ s.batch ++ evsOf lib pre := by
  induction inputs with
  | nil =>
      intro s k
      exact ⟨[], by simp [loopGo], by simp [loopGo, evsOf]⟩
  | cons inp rest ih =>
      intro s k
      simp only [loopGo]
      split
      case _ hpe =>
        obtain ⟨pre, h1, h2⟩ := ih (consumeMark inp s) k
        refine ⟨inp :: pre, ?_, ?_⟩
        · rw [List.cons_append, ← h1]
        · rw [h2]
          simp [evsOf, List.filterMap_cons, hpe]
      case _ e hpe =>
        by_cases htr : bs ≤ (s.batch ++ [e]).length ∨ bt ≤ inp.time - s.lastBatchTime
        · rw [if_pos htr]
          by_cases hok : oracle k = true
          · rw [if_pos hok]
            obtain ⟨pre, h1, h2⟩ :=
              ih ⟨[], inp.time, s.written ++ [s.batch ++ [e]],
                  (consumeMark inp s).consumed, (consumeMark inp s).committed⟩ (k + 1)
            refine ⟨inp :: pre, ?_, ?_⟩
            · rw [List.cons_append, ← h1]
            · rw [h2]
              simp [evsOf, List.filterMap_cons, hpe, List.flatten_append]
          · rw [if_neg hok]
            refine ⟨[inp], by simp, ?_⟩
            simp [evsOf, List.filterMap_cons, hpe]
        · rw [if_neg htr]
          obtain ⟨pre, h1, h2⟩ :=
            ih ⟨s.batch ++ [e], s.lastBatchTime, s.written,
                (consumeMark inp s).consumed, (consumeMark inp s).committed⟩ k
          refine ⟨inp :: pre, ?_, ?_⟩
          · rw [List.cons_append, ← h1]
          · rw [h2]
            simp [evsOf, List.filterMap_cons, hpe]

/-- C4 (amended): after an in-loop append failure the loop stops consuming
and the held batch is retried exactly once, by the write in the `finally`
block, without re-fetching anything from the broker. In every run, the
inputs split into a consumed prefix and an unconsumed remainder, the
normalized records of the consumed prefix are exactly the successfully
appended records followed by the pending (unwritten) batch — so a
successful retry appends exactly one logical copy, no loss and no
duplication — and the process exits zero exactly when nothing is left
pending; if the single retry also fails, the exit is non-zero with the
batch left pending rather than silently dropped. -/
theorem C4_failed_batch_one_retry_no_loss (lib : PyLib) (oracle : Nat → Bool)
    (bs bt t0 : Nat) (inputs : List PollInput) :
    ∃ pre rem, inputs = pre ++ rem
      ∧ (runLoop lib oracle bs bt t0 inputs).appends.flatten
          ++ (runLoop lib oracle bs bt t0 inputs).pending = evsOf lib pre
      ∧ ((runLoop lib oracle bs bt t0 inputs).exit = ProcExit.zero
          ↔ (runLoop lib oracle bs bt t0 inputs).pending = []) := by
  obtain ⟨pre, h1, h2⟩ := loopGo_events lib oracle bs bt inputs ⟨[], t0, [], 0, 0⟩ 0
  refine ⟨pre, (loopGo lib oracle bs bt inputs ⟨[], t0, [], 0, 0⟩ 0).2.2.2, h1, ?_, ?_⟩
  · cases hsb : (loopGo lib oracle bs bt inputs ⟨[], t0, [], 0, 0⟩ 0).1.batch with
    | nil =>
        simp only [runLoop, hsb]
        rw [hsb] at h2
        simpa using h2
    | cons hd tl =>
        simp only [runLoop, hsb]
        rw [hsb] at h2
        by_cases hok : oracle (loopGo lib oracle bs bt inputs ⟨[], t0, [], 0, 0⟩ 0).2.1 = true
        · rw [if_pos hok]
          simpa [List.flatten_append] using h2
        · rw [if_neg hok]
          simpa using h2
  · cases hsb : (loopGo lib oracle bs bt inputs ⟨[], t0, [], 0, 0⟩ 0).1.batch with
    | nil => simp [runLoop, hsb]
    | cons hd tl =>
        simp only [runLoop, hsb]
        by_cases hok : oracle (loopGo lib oracle bs bt inputs ⟨[], t0, [], 0, 0⟩ 0).2.1 = true
        · rw [if_pos hok]
          simp
        · rw [if_neg hok]
          simp

/-- C4 counterexample: append failing twice then succeeding on the third
attempt cannot yield one appended copy, because there is no third attempt.
With a write oracle that fails attempts 0 and 1 and would succeed from
attempt 2 on, a run that fills one batch of 100 ends with nothing
appended and a non-zero exit: after the in-loop failure the only retry is
the `finally` write, and its failure propagates out of `main`. -/
theorem C4_no_third_attempt_cex :
    (runLoop testLib (fun k => decide (2 ≤ k)) 100 10 0
        (List.replicate 100 (pollOk 0))).appends = []
    ∧ (runLoop testLib (fun k => decide (2 ≤ k)) 100 10 0
        (List.replicate 100 (pollOk 0))).exit = ProcExit.nonzero
    ∧ (fun k => decide (2 ≤ k)) 2 = true := by
  refine ⟨by decide, by decide, by decide⟩

/-! ## Claims about connection acquisition -/

theorem waitGo_all_fail (connect : Nat → Bool) (maxr : Nat) :
    ∀ (fuel attempt secs : Nat), attempt + fuel = maxr →
      (∀ j, attempt ≤ j → connect j = false) →
      waitGo connect maxr fuel attempt secs = ⟨false, maxr, secs + 5 * (fuel - 1)⟩ := by
  intro fuel
  induction fuel with
  | zero =>
      intro attempt secs hsum hc
      simp [waitGo]
  | succ n ihn =>
      intro attempt secs hsum hc
      simp only [waitGo, hc attempt (Nat.le_refl _), Bool.false_eq_true, if_false]
      by_cases hlt : attempt < maxr - 1
      · rw [if_pos hlt, ihn (attempt + 1) (secs + 5) (by omega) (fun j hj => hc j (by omega))]
        have hn : 1 ≤ n := by omega
        have harith : secs + 5 + 5 * (n - 1) = secs + 5 * (n + 1 - 1) := by omega
        rw [harith]
      · rw [if_neg hlt, ihn (attempt + 1) secs (by omega) (fun j hj => hc j (by omega))]
        have hn : n = 0 := by omega
        subst hn
        simp

theorem waitGo_first_success (connect : Nat → Bool) (maxr : Nat) :
    ∀ (d fuel attempt secs : Nat), d < fuel → attempt + fuel = maxr →
      (∀ j, j < d → connect (attempt + j) = false) → connect (attempt + d) = true →
      waitGo connect maxr fuel attempt secs = ⟨true, attempt + d + 1, secs + 5 * d⟩ := by
  intro d
  induction d with
  | zero =>
      intro fuel attempt secs hd hsum hf hs
      obtain ⟨n, rfl⟩ : ∃ n, fuel = n + 1 := ⟨fuel - 1, by omega⟩
      rw [Nat.add_zero] at hs
      simp [waitGo, hs]
  | succ d ihd =>
      intro fuel attempt secs hd hsum hf hs
      obtain ⟨n, rfl⟩ : ∃ n, fuel = n + 1 := ⟨fuel - 1, by omega⟩
      have h0 : connect attempt = false := by
        have := hf 0 (by omega)
        rwa [Nat.add_zero] at this
      have hlt : attempt < maxr - 1 := by omega
      simp only [waitGo, h0, Bool.false_eq_true, if_false]
      rw [if_pos hlt,
        ihd n (attempt + 1) (secs + 5) (by omega) (by omega)
          (fun j hj => by
            rw [show attempt + 1 + j = attempt + (j + 1) by omega]
            exact hf (j + 1) (by omega))
          (by
            rw [show attempt + 1 + d = attempt + (d + 1) by omega]
            exact hs)]
      have harith1 : attempt + 1 + d + 1 = attempt + (d + 1) + 1 := by omega
      have harith2 : secs + 5 + 5 * d = secs + 5 * (d + 1) := by omega
      rw [harith1, harith2]

/-- C6 counterexample: when every connection attempt fails, `main` logs and
returns normally (lines 152-155 of writer.py), so the process terminates
with exit status zero — not the failed (non-zero) exit the claim states. -/
theorem C6_exit_zero_cex :
    startupOutcome (fun _ => false) = some ProcExit.zero
    ∧ startupOutcome (fun _ => false) ≠ some ProcExit.nonzero := by
  exact ⟨by decide, by decide⟩

/-- C6 (amended): `wait_for_kafka` attempts the connection up to 30 times,
sleeping a fixed 5 seconds between consecutive attempts (29 sleeps, 145
seconds, when all fail), returns `True` as soon as an attempt succeeds
(after `d` failures: `d + 1` attempts and `5 * d` seconds asleep), and when
every attempt fails the process stops consuming — but by a plain return
from `main`, exiting with status zero rather than non-zero. -/
theorem C6_bounded_retry_zero_exit (connect : Nat → Bool) :
    ((∀ j, connect j = false) →
      wait_for_kafka connect = ⟨false, 30, 145⟩
        ∧ startupOutcome connect = some ProcExit.zero)
    ∧ ∀ d, d < 30 → (∀ j, j < d → connect j = false) → connect d = true →
        wait_for_kafka connect = ⟨true, d + 1, 5 * d⟩
          ∧ startupOutcome connect = none := by
  constructor
  · intro hfail
    have hw := waitGo_all_fail connect 30 30 0 0 (by omega) (fun j _ => hfail j)
    rw [show (0 : Nat) + 5 * (30 - 1) = 145 by norm_num] at hw
    exact ⟨hw, by simp [startupOutcome, wait_for_kafka, hw]⟩
  · intro d hd hf hs
    have hw := waitGo_first_success connect 30 d 30 0 0 hd (by omega)
      (fun j hj => by simpa using hf j hj) (by simpa using hs)
    rw [show (0 : Nat) + d + 1 = d + 1 by omega, show (0 : Nat) + 5 * d = 5 * d by omega] at hw
    exact ⟨hw, by simp [startupOutcome, wait_for_kafka, hw]⟩

/-- Witness for C6 (amended): both halves at concrete connection
behaviours — thirty failures with 145 seconds asleep, and success on the
fourth attempt after three 5-second sleeps. -/
theorem C6_bounded_retry_witness :
    wait_for_kafka (fun _ => false) = ⟨false, 30, 145⟩
    ∧ wait_for_kafka (fun j => decide (j = 3)) = ⟨true, 4, 15⟩ :=
  ⟨((C6_bounded_retry_zero_exit (fun _ => false)).1 (fun _ => rfl)).1,
   ((C6_bounded_retry_zero_exit (fun j => decide (j = 3))).2 3 (by omega)
      (fun j hj => by
        simp only [decide_eq_false_iff_not]
        omega)
      (by decide)).1⟩
